import Mathlib

/-!
Verification of `convert_to_safetensor.py` (IBM/convert-to-safetensors).

The script is a linear pipeline: load a legacy checkpoint into a name-to-tensor
mapping, drop aliased tensors (grouped by `data_ptr`), downcast every retained
tensor to contiguous half precision, write the container, run a size-drift
check, copy sidecar files, and finally run a round-trip equality check.

Shallow embedding conventions:
  * A Python `dict` from names to tensors is a `List (String × Tensor)` whose
    names are pairwise distinct (`Nodup` hypotheses state this where needed);
    the list order is the dict insertion order.
  * Tensor storage is modelled by a heap: a list of storage sizes in bytes.
    Storage `i` occupies the address range from the sum of the sizes of
    storages `0..i-1` (its base) to base plus its own size, so live storages
    occupy pairwise disjoint address ranges, exactly as a real allocator
    guarantees.  A tensor records which storage backs it and its byte offset
    into that storage; `data_ptr` is base plus offset, matching
    `torch.Tensor.data_ptr()` (address of the first element of the view).
  * `torch.load`, `safetensors.save_file` / `load_file` and `os.stat` are
    external collaborators: their results (`loaded`, `reloaded`, the two file
    sizes) are inputs of the conversion environment.  The code of this
    repository that consumes them is embedded faithfully.
  * Python `int / int` division produces a float; it is modelled exactly over
    `ℚ`.  No claim below hinges on binary floating-point rounding: every
    concrete instance is evaluated far from the 0.01 boundary.
  * Numeric content of a tensor is an abstract `values : List Int`; the
    half-precision downcast changes the dtype tag and is value-abstract, since
    no claim concerns the rounded numeric values themselves.
  * Exceptions are `Except PyError`; a raise aborts the rest of the pipeline.
-/

/-- Tensor element types, as in `torch.dtype`. -/
inductive DType where
  | float32
  | float16
  | bfloat16
  | int64
  | int32
  | uint8
  | boolT
deriving DecidableEq, Repr

/-- A tensor view: the storage backing it, the byte offset of its first
element inside that storage, its dtype, its contiguity flag, and its
(abstract) element contents. -/
structure Tensor where
  storageId : Nat
  offsetBytes : Nat
  dtype : DType
  contiguousFlag : Bool
  values : List Int
deriving DecidableEq, Repr

/-- The allocator state: `heap[i]` is the byte size of storage `i`. -/
abbrev Heap := List Nat

/-- Base address of storage `i`: storages are laid out consecutively, so the
address ranges of distinct storages are disjoint. -/
def storageBase (h : Heap) (i : Nat) : Nat := (h.take i).sum

/-- `torch.Tensor.data_ptr()`: address of the first element of the view,
i.e. storage base address plus the view's byte offset (storage base +
storage_offset * element_size in torch terms). -/
def data_ptr (h : Heap) (t : Tensor) : Nat := storageBase h t.storageId + t.offsetBytes

/-- A tensor is well formed for a heap when its storage exists and its first
element lies strictly inside that storage's byte range. -/
def WfTensor (h : Heap) (t : Tensor) : Prop :=
  t.storageId < h.length ∧ t.offsetBytes < h.getD t.storageId 0

/-- Two tensors share underlying storage exactly when they are backed by the
same storage object. -/
def shareStorage (a b : Tensor) : Prop := a.storageId = b.storageId

instance : DecidablePred (fun p : Tensor × Tensor => shareStorage p.1 p.2) :=
  fun p => inferInstanceAs (Decidable (p.1.storageId = p.2.storageId))

instance (a b : Tensor) : Decidable (shareStorage a b) :=
  inferInstanceAs (Decidable (a.storageId = b.storageId))

/-- First-occurrence deduplication of a list of pointer keys: the iteration
order of the keys of the Python `defaultdict` built in `get_shared_weights`
(a dict key is inserted on first use and the keys iterate in insertion
order). -/
def dedupKeys (ps : List Nat) : List Nat :=
  ps.foldl (fun acc p => if p ∈ acc then acc else acc ++ [p]) []

/-- The value list the `defaultdict` accumulates at key `p`: the names of all
entries whose tensor has data pointer `p`, in dict iteration order. -/
def groupNames (h : Heap) (tensors : List (String × Tensor)) (p : Nat) : List String :=
  (tensors.filter (fun kv => data_ptr h kv.2 == p)).map Prod.fst

/-- Embedding of `get_shared_weights` (lines 20-27): group names by
`v.data_ptr()` and return the groups with more than one member. -/
def get_shared_weights (h : Heap) (tensors : List (String × Tensor)) : List (List String) :=
  ((dedupKeys (tensors.map (fun kv => data_ptr h kv.2))).map (groupNames h tensors)).filter
    (fun names => decide (1 < names.length))

/-- The names popped by the loop at lines 60-62: for every shared group,
every member except the first (`shared_weights[1:]`). -/
def removedNames (h : Heap) (tensors : List (String × Tensor)) : List String :=
  (get_shared_weights h tensors).foldr (fun names acc => names.drop 1 ++ acc) []

/-- Effect of the pop loop at lines 60-62 on the loaded dict: every entry
whose name was popped is gone, the rest survive in order. -/
def resolveAliases (h : Heap) (tensors : List (String × Tensor)) : List (String × Tensor) :=
  tensors.filter (fun kv => !(removedNames h tensors).contains kv.1)

/-- `Tensor.contiguous()`: the result is contiguous; an already contiguous
tensor is returned unchanged, otherwise the data is re-laid-out.  (The fresh
storage a copy would allocate is not tracked: no later pipeline stage of the
script inspects storage identity.) -/
def tensorContiguous (t : Tensor) : Tensor := { t with contiguousFlag := true }

/-- `Tensor.half()`: unconditional downcast of the dtype tag to float16; it is
defined for every input dtype (torch's standard narrowing conversion raises no
error for integer or lower-precision inputs).  Numeric rounding is outside the
model (`values` is abstract). -/
def tensorHalf (t : Tensor) : Tensor := { t with dtype := DType.float16 }

/-- Embedding of line 67: `{k: v.contiguous().half() for k, v in loaded.items()}`. -/
def normalizeTensors (loaded : List (String × Tensor)) : List (String × Tensor) :=
  loaded.map (fun kv => (kv.1, tensorHalf (tensorContiguous kv.2)))

/-- Python exceptions the script can raise. -/
inductive PyError where
  | zeroDivisionError
  | runtimeError (msg : String)
  | keyError (key : String)
  | attributeError (msg : String)
deriving DecidableEq, Repr

/-- The message of the size-drift `RuntimeError` (lines 38-43), which
interpolates the two file sizes. -/
def sizeDriftMessage (sf_size pt_size : Nat) : String :=
  "The file size different is more than 1%: - " ++ toString sf_size ++ " - " ++
    toString pt_size

/-- Embedding of `check_file_size` (lines 29-43).  The two `os.stat` sizes are
passed in directly.  Python evaluates `(sf_size - pt_size) / pt_size` as true
division: it raises `ZeroDivisionError` when `pt_size` is `0`, and otherwise
the exact rational quotient is compared against `0.01`. -/
def check_file_size (sf_size pt_size : Nat) : Except PyError Unit :=
  if pt_size = 0 then Except.error PyError.zeroDivisionError
  else if ((sf_size : ℚ) - (pt_size : ℚ)) / (pt_size : ℚ) > 1 / 100 then
    Except.error (PyError.runtimeError (sizeDriftMessage sf_size pt_size))
  else Except.ok ()

/-- `torch.equal`: exact equality, no tolerance — same dtype and identical
element contents (tensors of different dtypes are unequal). -/
def torchEqual (a b : Tensor) : Bool :=
  decide (a.dtype = b.dtype ∧ a.values = b.values)

/-- Python dict subscript `d[k]` as a lookup over the entry list. -/
def dictGet (k : String) (d : List (String × Tensor)) : Option Tensor :=
  (d.find? (fun kv => kv.1 == k)).map Prod.snd

/-- The mismatch message raised at line 81 for key `k`. -/
def mismatchMessage (k : String) : String :=
  "Mismatch in tensors for key " ++ k ++ "."

/-- Embedding of the round-trip loop (lines 79-81): iterate over the written
mapping in order; `reloaded[k]` raises `KeyError` on a missing key, and the
first unequal tensor raises a `RuntimeError` naming that key. -/
def roundTripCheck : List (String × Tensor) → List (String × Tensor) → Except PyError Unit
  | [], _ => Except.ok ()
  | (k, v) :: rest, reloaded =>
    match dictGet k reloaded with
    | none => Except.error (PyError.keyError k)
    | some w =>
      if torchEqual v w then roundTripCheck rest reloaded
      else Except.error (PyError.runtimeError (mismatchMessage k))

/-- The pipeline stages of one `convert_file` run, in the spec's vocabulary.
`containerWriter` covers `os.makedirs` + `save_file` (lines 70-71); the two
halves of the Integrity Checker are separate stages because the source
separates them. -/
inductive Stage where
  | loader
  | aliasResolver
  | precisionNormalizer
  | containerWriter
  | sizeDriftCheck
  | sidecarCopier
  | roundTripCheck
deriving DecidableEq, Repr

/-- Inputs of one `convert_file` run, bundling the results of the external
collaborators: `loaded` is what `torch.load` produced (after the
`"state_dict"` unwrap at lines 54-55 selected the inner mapping), `ptSize` and
`sfSize` are the `os.stat` sizes of the legacy file and of the container
`save_file` wrote, and `reloaded` is what `load_file` returns at line 78. -/
structure ConvertEnv where
  heap : Heap
  loaded : List (String × Tensor)
  ptSize : Nat
  sfSize : Nat
  reloaded : List (String × Tensor)
  copyAddData : Bool
deriving Repr

/-- Embedding of `convert_file` (lines 45-81).  The returned trace lists the
stages that ran to completion, in execution order; a raised exception aborts
the remainder of the pipeline. -/
def convert_file (env : ConvertEnv) : Except PyError Unit × List Stage :=
  let pruned := resolveAliases env.heap env.loaded
  let normalized := normalizeTensors pruned
  let written : List Stage :=
    [Stage.loader, Stage.aliasResolver, Stage.precisionNormalizer, Stage.containerWriter]
  match check_file_size env.sfSize env.ptSize with
  | Except.error e => (Except.error e, written)
  | Except.ok _ =>
    let afterCopy :=
      written ++ [Stage.sizeDriftCheck] ++
        (if env.copyAddData then [Stage.sidecarCopier] else [])
    match roundTripCheck normalized env.reloaded with
    | Except.error e => (Except.error e, afterCopy)
    | Except.ok _ => (Except.ok (), afterCopy ++ [Stage.roundTripCheck])

/-- Python `str.strip()` with no argument: remove leading and trailing
whitespace characters. -/
def pyStrip (s : String) : String :=
  ⟨((s.data.dropWhile Char.isWhitespace).reverse.dropWhile Char.isWhitespace).reverse⟩

/-- Python `str.split(sep)` for a one-character separator, over character
lists: splitting the empty string yields one empty piece, and every
occurrence of the separator opens a new piece. -/
def splitChar (sep : Char) : List Char → List (List Char)
  | [] => [[]]
  | c :: rest =>
    let r := splitChar sep rest
    if c = sep then [] :: r
    else
      match r with
      | [] => [[c]]
      | g :: gs => (c :: g) :: gs

/-- Joining path components with single separators (`sep.join(comps)`). -/
def joinSlash : List (List Char) → List Char
  | [] => []
  | [g] => g
  | g :: gs => g ++ '/' :: joinSlash gs

/-- The CPython `posixpath.normpath` initial-slash rule: exactly two leading
slashes are preserved as two, any other number collapses to one. -/
def initialSlashCount : List Char → Nat
  | '/' :: '/' :: '/' :: _ => 1
  | '/' :: '/' :: _ => 2
  | '/' :: _ => 1
  | _ => 0

/-- POSIX `os.path.normpath`, following the CPython algorithm: split on the
separator, drop empty and dot components, resolve dot-dot against the
accumulated components, and re-prefix the (one or two) initial slashes. -/
def normpathChars (cs : List Char) : List Char :=
  if cs = [] then ['.']
  else
    let initialSlashes := initialSlashCount cs
    let comps := splitChar '/' cs
    let newComps :=
      comps.foldl
        (fun acc comp =>
          if comp = [] ∨ comp = ['.'] then acc
          else if comp ≠ ['.', '.'] ∨ (initialSlashes = 0 ∧ acc = []) ∨
              (acc ≠ [] ∧ acc.getLastD [] = ['.', '.']) then
            acc ++ [comp]
          else acc.dropLast)
        []
    let joined := joinSlash newComps
    let out := List.replicate initialSlashes '/' ++ joined
    if out = [] then ['.'] else out

/-- String wrapper for `normpathChars`. -/
def normpath (s : String) : String := ⟨normpathChars s.data⟩

/-- POSIX `os.path.basename`: everything after the last separator. -/
def basename (s : String) : String := ⟨(splitChar '/' s.data).getLastD []⟩

/-- POSIX `os.path.join` for two components: an absolute second component
wins; otherwise the components are glued with exactly one separator. -/
def joinPath (a b : String) : String :=
  match b.data with
  | '/' :: _ => b
  | _ =>
    if a.data = [] ∨ a.data.getLastD ' ' = '/' then ⟨a.data ++ b.data⟩
    else ⟨a.data ++ '/' :: b.data⟩

/-- The parsed argparse namespace: each optional flag is `none` when the flag
was not supplied on the command line (argparse stores `None`). -/
structure MainArgs where
  src_directory : Option String
  dest_directory : Option String
deriving DecidableEq, Repr

/-- Embedding of lines 100-108 of `main`: strip both directory arguments and
derive the destination from the source basename when the stripped destination
is empty.  Python's `None.strip()` raises `AttributeError`, so an omitted flag
aborts before any derivation. -/
def resolveDirs (args : MainArgs) : Except PyError (String × String) :=
  match args.src_directory with
  | none => Except.error (PyError.attributeError "NoneType object has no attribute strip")
  | some s =>
    let src_dir := pyStrip s
    match args.dest_directory with
    | none => Except.error (PyError.attributeError "NoneType object has no attribute strip")
    | some d =>
      let dest_dir := pyStrip d
      if dest_dir = "" then
        let model_name := basename (normpath src_dir)
        Except.ok (src_dir, joinPath src_dir (model_name ++ "_safetensors"))
      else Except.ok (src_dir, dest_dir)

/-- Inputs of one `main` run: the argparse namespace, the `os.listdir` result
for the source directory, and the conversion environment `convert_file` will
consume if it is reached. -/
structure MainEnv where
  args : MainArgs
  srcListing : List String
  cenv : ConvertEnv
deriving Repr

/-- Embedding of `main` (lines 83-113).  An empty trace means no pipeline
stage ran — in particular no directory or file was created, since only
`containerWriter` (and `sidecarCopier`) touch the destination. -/
def mainRun (env : MainEnv) : Except PyError Unit × List Stage :=
  match resolveDirs env.args with
  | Except.error e => (Except.error e, [])
  | Except.ok _ =>
    if ¬env.srcListing.contains "pytorch_model.bin" then
      (Except.error (PyError.runtimeError
        "pytorch_model.bin file not found. Please ensure the correct source directory is specified."), [])
    else convert_file env.cenv

instance (h : Heap) (t : Tensor) : Decidable (WfTensor h t) :=
  decidable_of_iff (t.storageId < h.length ∧ t.offsetBytes < h.getD t.storageId 0) Iff.rfl

/-- A single float32 tensor shared (aliased) by several dict entries. -/
def sharedT : Tensor := ⟨0, 0, DType.float32, true, [1]⟩

/-- A dict in which three names alias the same buffer, in insertion order
`a`, `b`, `c`. -/
def aliasedDict : List (String × Tensor) := [("a", sharedT), ("b", sharedT), ("c", sharedT)]

/-- One eight-byte storage. -/
def aliasHeap : Heap := [8]

/-- A view of storage 0 starting at its first byte. -/
def viewA : Tensor := ⟨0, 0, DType.float32, true, [7, 7]⟩

/-- A view of the same storage 0 starting four bytes in (e.g. `t[1:]` of a
float32 vector): same underlying storage, different first element. -/
def viewB : Tensor := ⟨0, 4, DType.float32, true, [7]⟩

/-- The float32 tensor a benign one-tensor checkpoint contains. -/
def loadedW : Tensor := ⟨0, 0, DType.float32, true, [7]⟩

/-- Its normalized (contiguous half-precision) image, as reloaded. -/
def normalizedW : Tensor := ⟨0, 0, DType.float16, true, [7]⟩

/-- A benign run: one tensor, equal file sizes, faithful reload. -/
def envOk : ConvertEnv :=
  { heap := [4], loaded := [("w", loadedW)], ptSize := 100, sfSize := 100,
    reloaded := [("w", normalizedW)], copyAddData := true }

/-- The same run except the container is half the size of the legacy file. -/
def envShrink : ConvertEnv :=
  { heap := [4], loaded := [("w", loadedW)], ptSize := 100, sfSize := 50,
    reloaded := [("w", normalizedW)], copyAddData := true }

/-- A `main` invocation whose source directory lacks `pytorch_model.bin`. -/
def mainEnvNoBin : MainEnv :=
  { args := ⟨some "/data/foo", some ""⟩, srcListing := ["config.json"], cenv := envOk }

/-- A `main` invocation that omits the `--dest_directory` flag entirely
(argparse stores `None`), with everything else in place. -/
def mainEnvNoDest : MainEnv :=
  { args := ⟨some "/data/foo", none⟩,
    srcListing := ["pytorch_model.bin", "config.json"], cenv := envOk }

/-! ## Storage layout and `data_ptr` -/

lemma storageBase_le (h : Heap) {i j : Nat} (hij : i ≤ j) :
    storageBase h i ≤ storageBase h j := by
  unfold storageBase
  have hj : j = i + (j - i) := (Nat.add_sub_cancel' hij).symm
  rw [hj, List.take_add, List.sum_append]
  exact Nat.le_add_right _ _

lemma storageBase_succ (h : Heap) {i : Nat} (hi : i < h.length) :
    storageBase h (i + 1) = storageBase h i + h.getD i 0 := by
  unfold storageBase
  have htake : (h.drop i).take 1 = [h[i]] := by
    rw [List.drop_eq_getElem_cons hi]
    rfl
  have hgd : h.getD i 0 = h[i] := by
    simp [List.getD_eq_getElem?_getD, List.getElem?_eq_getElem hi]
  rw [List.take_add, List.sum_append, htake, hgd]
  simp

lemma data_ptr_lt (h : Heap) {t1 t2 : Tensor} (h1 : WfTensor h t1) (h2 : WfTensor h t2)
    (hlt : t1.storageId < t2.storageId) : data_ptr h t1 < data_ptr h t2 :=
  calc data_ptr h t1 = storageBase h t1.storageId + t1.offsetBytes := rfl
    _ < storageBase h t1.storageId + h.getD t1.storageId 0 := Nat.add_lt_add_left h1.2 _
    _ = storageBase h (t1.storageId + 1) := (storageBase_succ h h1.1).symm
    _ ≤ storageBase h t2.storageId := storageBase_le h hlt
    _ ≤ data_ptr h t2 := Nat.le_add_right _ _

/-- Claim C4 (amended): under the allocator model — live storages occupy
disjoint address ranges — the buffer-identity key computed by the alias
resolver (`data_ptr`, the address of the view's first element) is equal for
two well-formed tensors exactly when they are backed by the same storage AND
start at the same offset into it.  In particular the key never collides for
independently allocated tensors (equal-valued or not), but two views of one
storage that start at different offsets have different keys, so key equality
is strictly finer than storage sharing. -/
theorem data_ptr_eq_iff_storage_and_offset (h : Heap) (t1 t2 : Tensor)
    (h1 : WfTensor h t1) (h2 : WfTensor h t2) :
    data_ptr h t1 = data_ptr h t2 ↔ shareStorage t1 t2 ∧ t1.offsetBytes = t2.offsetBytes := by
  constructor
  · intro heq
    rcases Nat.lt_trichotomy t1.storageId t2.storageId with hlt | hsid | hgt
    · exact absurd heq (Nat.ne_of_lt (data_ptr_lt h h1 h2 hlt))
    · refine ⟨hsid, ?_⟩
      have : storageBase h t1.storageId + t1.offsetBytes
          = storageBase h t1.storageId + t2.offsetBytes := by
        simpa [data_ptr, hsid] using heq
      exact Nat.add_left_cancel this
    · exact absurd heq.symm (Nat.ne_of_lt (data_ptr_lt h h2 h1 hgt))
  · rintro ⟨hsid, hoff⟩
    simp [data_ptr, shareStorage] at hsid ⊢
    rw [hsid, hoff]

/-- Witness for C4's amended theorem at concrete well-formed tensors. -/
theorem data_ptr_eq_iff_storage_and_offset_witness :
    data_ptr aliasHeap viewA = data_ptr aliasHeap viewB ↔
      shareStorage viewA viewB ∧ viewA.offsetBytes = viewB.offsetBytes :=
  data_ptr_eq_iff_storage_and_offset aliasHeap viewA viewB (by decide) (by decide)

/-- Claim C4, counterexample to the claim as stated: `viewA` and `viewB` are
well-formed views of the same storage (true aliasing, e.g. a tensor and its
one-element-on slice), yet their `data_ptr` keys differ — so "the key always
holds equal for any two views of the same storage" is false. -/
theorem same_storage_distinct_data_ptr_counterexample :
    WfTensor aliasHeap viewA ∧ WfTensor aliasHeap viewB ∧ shareStorage viewA viewB ∧
      data_ptr aliasHeap viewA ≠ data_ptr aliasHeap viewB := by
  decide

/-! ## Alias resolution: membership structure of the shared-weight groups -/

lemma mem_foldl_dedup (ps : List Nat) (acc : List Nat) (x : Nat) :
    x ∈ ps.foldl (fun acc p => if p ∈ acc then acc else acc ++ [p]) acc ↔ x ∈ acc ∨ x ∈ ps := by
  induction ps generalizing acc with
  | nil => simp
  | cons p rest ih =>
    rw [List.foldl_cons, ih]
    by_cases hp : p ∈ acc
    · simp only [if_pos hp, List.mem_cons]
      constructor
      · rintro (hx | hx)
        · exact Or.inl hx
        · exact Or.inr (Or.inr hx)
      · rintro (hx | hx | hx)
        · exact Or.inl hx
        · exact Or.inl (by rw [hx]; exact hp)
        · exact Or.inr hx
    · simp only [if_neg hp, List.mem_append, List.mem_singleton, List.mem_cons]
      tauto

lemma mem_dedupKeys (ps : List Nat) (x : Nat) : x ∈ dedupKeys ps ↔ x ∈ ps := by
  unfold dedupKeys
  rw [mem_foldl_dedup]
  simp

lemma mem_groupNames {h : Heap} {l : List (String × Tensor)} {p : Nat} {n : String} :
    n ∈ groupNames h l p ↔ ∃ kv, kv ∈ l ∧ kv.1 = n ∧ data_ptr h kv.2 = p := by
  simp only [groupNames, List.mem_map, List.mem_filter, beq_iff_eq]
  constructor
  · rintro ⟨kv, ⟨hmem, hp⟩, hn⟩
    exact ⟨kv, hmem, hn, hp⟩
  · rintro ⟨kv, hmem, hn, hp⟩
    exact ⟨kv, ⟨hmem, hp⟩, hn⟩

lemma head?_filter_eq_find? {α : Type} (q : α → Bool) (l : List α) :
    (l.filter q).head? = l.find? q := by
  induction l with
  | nil => rfl
  | cons a l ih =>
    by_cases hq : q a
    · simp [List.filter_cons, List.find?_cons, hq]
    · simp [List.filter_cons, List.find?_cons, hq, ih]

lemma mem_removedNames {h : Heap} {l : List (String × Tensor)} {n : String} :
    n ∈ removedNames h l ↔ ∃ g, g ∈ get_shared_weights h l ∧ n ∈ g.drop 1 := by
  unfold removedNames
  generalize get_shared_weights h l = L
  induction L with
  | nil => simp
  | cons g L ih =>
    simp only [List.foldr_cons, List.mem_append, ih, List.mem_cons]
    constructor
    · rintro (hx | ⟨g2, hg2, hx⟩)
      · exact ⟨g, Or.inl rfl, hx⟩
      · exact ⟨g2, Or.inr hg2, hx⟩
    · rintro ⟨g2, hg2 | hg2, hx⟩
      · exact Or.inl (hg2 ▸ hx)
      · exact Or.inr ⟨g2, hg2, hx⟩

lemma mem_get_shared_weights {h : Heap} {l : List (String × Tensor)} {g : List String} :
    g ∈ get_shared_weights h l ↔
      (∃ p, p ∈ l.map (fun kv => data_ptr h kv.2) ∧ groupNames h l p = g) ∧ 1 < g.length := by
  unfold get_shared_weights
  simp only [List.mem_filter, List.mem_map, mem_dedupKeys, decide_eq_true_eq]

lemma name_inj {l : List (String × Tensor)} (hnd : (l.map Prod.fst).Nodup) :
    ∀ a ∈ l, ∀ b ∈ l, a.1 = b.1 → a = b :=
  fun a ha b hb hab => List.inj_on_of_nodup_map hnd ha hb hab

lemma mem_removedNames_iff {h : Heap} {l : List (String × Tensor)}
    (hnd : (l.map Prod.fst).Nodup) {kv : String × Tensor} (hkv : kv ∈ l) :
    kv.1 ∈ removedNames h l ↔
      l.find? (fun e => data_ptr h e.2 == data_ptr h kv.2) ≠ some kv := by
  have hlnd : l.Nodup := hnd.of_map
  constructor
  · intro hrem hfind
    rw [mem_removedNames] at hrem
    obtain ⟨g, hg, hdrop⟩ := hrem
    rw [mem_get_shared_weights] at hg
    obtain ⟨⟨p, hpmem, hgp⟩, hlen⟩ := hg
    have hkvg : kv.1 ∈ g := List.mem_of_mem_drop hdrop
    rw [← hgp, mem_groupNames] at hkvg
    obtain ⟨kv2, hkv2mem, hname, hptr⟩ := hkvg
    have hkv2 : kv2 = kv := name_inj hnd kv2 hkv2mem kv hkv hname
    have hp : p = data_ptr h kv.2 := by rw [← hptr, hkv2]
    have hgF : g = (l.filter (fun e => data_ptr h e.2 == data_ptr h kv.2)).map Prod.fst := by
      rw [← hgp, hp]
      rfl
    have hhead : (l.filter (fun e => data_ptr h e.2 == data_ptr h kv.2)).head? = some kv := by
      rw [head?_filter_eq_find?]
      exact hfind
    cases hFe : l.filter (fun e => data_ptr h e.2 == data_ptr h kv.2) with
    | nil =>
      rw [hFe] at hhead
      simp at hhead
    | cons f0 Ftail =>
      rw [hFe] at hhead
      have hf0 : f0 = kv := by simpa using hhead
      rw [hgF, hFe] at hdrop
      simp only [List.map_cons, List.drop_one, List.tail_cons] at hdrop
      rw [List.mem_map] at hdrop
      obtain ⟨e2, heF, hen⟩ := hdrop
      have heL : e2 ∈ l := by
        have heF2 : e2 ∈ l.filter (fun e => data_ptr h e.2 == data_ptr h kv.2) := by
          rw [hFe]
          exact List.mem_cons_of_mem _ heF
        exact List.mem_of_mem_filter heF2
      have hekv : e2 = kv := name_inj hnd e2 heL kv hkv hen
      have hFnd : (l.filter (fun e => data_ptr h e.2 == data_ptr h kv.2)).Nodup :=
        List.Nodup.filter _ hlnd
      rw [hFe] at hFnd
      have hnotin : f0 ∉ Ftail := (List.nodup_cons.mp hFnd).1
      rw [hekv] at heF
      rw [hf0] at hnotin
      exact hnotin heF
  · intro hfind
    have hpkv : (fun e => data_ptr h e.2 == data_ptr h kv.2) kv = true := by simp
    have hsome : (l.find? (fun e => data_ptr h e.2 == data_ptr h kv.2)).isSome := by
      rw [List.find?_isSome]
      exact ⟨kv, hkv, hpkv⟩
    obtain ⟨b, hb⟩ := Option.isSome_iff_exists.mp hsome
    have hbne : b ≠ kv := fun hco => hfind (hco ▸ hb)
    have hhead : (l.filter (fun e => data_ptr h e.2 == data_ptr h kv.2)).head? = some b := by
      rw [head?_filter_eq_find?]
      exact hb
    have hkvF : kv ∈ l.filter (fun e => data_ptr h e.2 == data_ptr h kv.2) :=
      List.mem_filter.mpr ⟨hkv, hpkv⟩
    cases hFe : l.filter (fun e => data_ptr h e.2 == data_ptr h kv.2) with
    | nil =>
      rw [hFe] at hkvF
      simp at hkvF
    | cons f0 Ftail =>
      rw [hFe] at hhead hkvF
      have hf0 : f0 = b := by simpa using hhead
      have hkvtail : kv ∈ Ftail := by
        rcases List.mem_cons.mp hkvF with hx | hx
        · rw [hf0] at hx
          exact absurd hx.symm hbne
        · exact hx
      rw [mem_removedNames]
      refine ⟨(l.filter (fun e => data_ptr h e.2 == data_ptr h kv.2)).map Prod.fst, ?_, ?_⟩
      · rw [mem_get_shared_weights]
        refine ⟨⟨data_ptr h kv.2, ?_, rfl⟩, ?_⟩
        · rw [List.mem_map]
          exact ⟨kv, hkv, rfl⟩
        · rw [List.length_map, hFe, List.length_cons]
          have hpos : 0 < Ftail.length := List.length_pos.mpr (List.ne_nil_of_mem hkvtail)
          omega
      · rw [hFe]
        simp only [List.map_cons, List.drop_one, List.tail_cons]
        rw [List.mem_map]
        exact ⟨kv, hkvtail, rfl⟩

lemma not_contains_iff {n : String} {L : List String} : (!L.contains n) = true ↔ n ∉ L := by
  simp

lemma mem_resolveAliases_iff {h : Heap} {l : List (String × Tensor)}
    (hnd : (l.map Prod.fst).Nodup) (kv : String × Tensor) :
    kv ∈ resolveAliases h l ↔
      kv ∈ l ∧ l.find? (fun e => data_ptr h e.2 == data_ptr h kv.2) = some kv := by
  unfold resolveAliases
  rw [List.mem_filter]
  constructor
  · rintro ⟨hmem, hpass⟩
    refine ⟨hmem, ?_⟩
    by_contra hne
    exact (not_contains_iff.mp hpass) ((mem_removedNames_iff hnd hmem).mpr hne)
  · rintro ⟨hmem, hfind⟩
    refine ⟨hmem, not_contains_iff.mpr ?_⟩
    rw [mem_removedNames_iff hnd hmem]
    simp [hfind]

lemma survivors_ptr_inj {h : Heap} {l : List (String × Tensor)}
    (hnd : (l.map Prod.fst).Nodup) :
    ∀ a ∈ l, ∀ b ∈ l, data_ptr h a.2 = data_ptr h b.2 →
      a ∈ resolveAliases h l → b ∈ resolveAliases h l → a = b := by
  intro a ha b hb hab hra hrb
  have hfa := ((mem_resolveAliases_iff hnd a).mp hra).2
  have hfb := ((mem_resolveAliases_iff hnd b).mp hrb).2
  have hpred : (fun e : String × Tensor => data_ptr h e.2 == data_ptr h a.2)
      = (fun e : String × Tensor => data_ptr h e.2 == data_ptr h b.2) := by
    funext e
    rw [hab]
  rw [hpred, hfb] at hfa
  exact (Option.some.inj hfa).symm

/-- Claim C3 (amended): with names pairwise distinct (a Python dict
guarantees this), (1) at most one entry of any storage-aliased pair survives
the pop loop — two survivors with equal `data_ptr` are the same entry; (2) an
entry survives exactly when it is the first entry of the dict, in insertion
order, carrying its `data_ptr` — so the unique survivor of every alias group
is its first member, and every entry whose pointer is unaliased (a group of
size one) survives; (3) every alias group does keep exactly one
representative: for each entry some entry with the same pointer survives.
The original claim's "exactly one of `{a, b}` survives" fails for groups of
three or more (see the counterexample), where a pair of non-first members
has no survivor at all. -/
theorem resolveAliases_unique_first_survivor (h : Heap) (l : List (String × Tensor))
    (hnd : (l.map Prod.fst).Nodup) :
    (∀ a ∈ l, ∀ b ∈ l, data_ptr h a.2 = data_ptr h b.2 →
        a ∈ resolveAliases h l → b ∈ resolveAliases h l → a = b) ∧
    (∀ a ∈ l, (a ∈ resolveAliases h l ↔
        l.find? (fun e => data_ptr h e.2 == data_ptr h a.2) = some a)) ∧
    (∀ a ∈ l, ∃ b, b ∈ resolveAliases h l ∧ data_ptr h b.2 = data_ptr h a.2) := by
  refine ⟨survivors_ptr_inj hnd, ?_, ?_⟩
  · intro a ha
    rw [mem_resolveAliases_iff hnd a]
    exact and_iff_right ha
  · intro a ha
    have hpa : (fun e => data_ptr h e.2 == data_ptr h a.2) a = true := by simp
    have hsome : (l.find? (fun e => data_ptr h e.2 == data_ptr h a.2)).isSome := by
      rw [List.find?_isSome]
      exact ⟨a, ha, hpa⟩
    obtain ⟨b, hb⟩ := Option.isSome_iff_exists.mp hsome
    have hbmem : b ∈ l := List.mem_of_find?_eq_some hb
    have hbp : data_ptr h b.2 = data_ptr h a.2 := by
      have := List.find?_some hb
      simpa using this
    refine ⟨b, ?_, hbp⟩
    rw [mem_resolveAliases_iff hnd b]
    refine ⟨hbmem, ?_⟩
    have hpred : (fun e : String × Tensor => data_ptr h e.2 == data_ptr h b.2)
        = (fun e : String × Tensor => data_ptr h e.2 == data_ptr h a.2) := by
      funext e
      rw [hbp]
    rw [hpred]
    exact hb

/-- Witness for C3's amended theorem: in the three-way aliased dict the entry
named `a` is characterized as a survivor because it is the first entry with
its pointer. -/
theorem resolveAliases_unique_first_survivor_witness :
    ("a", sharedT) ∈ resolveAliases aliasHeap aliasedDict ↔
      aliasedDict.find?
        (fun e => data_ptr aliasHeap e.2 == data_ptr aliasHeap sharedT) = some ("a", sharedT) :=
  (resolveAliases_unique_first_survivor aliasHeap aliasedDict (by decide)).2.1
    ("a", sharedT) (by decide)

/-- Claim C3, counterexample to the claim as stated: in a dict whose entries
`a`, `b`, `c` (in insertion order) all alias one buffer, the pair
`{b, c}` shares storage yet NEITHER member survives alias resolution — zero,
not "exactly one", of that pair survives (the group's survivor is `a`). -/
theorem alias_pair_survivor_counterexample :
    ("b", sharedT) ∈ aliasedDict ∧ ("c", sharedT) ∈ aliasedDict ∧
      shareStorage sharedT sharedT ∧
      data_ptr aliasHeap sharedT = data_ptr aliasHeap sharedT ∧
      ("b", sharedT) ∉ resolveAliases aliasHeap aliasedDict ∧
      ("c", sharedT) ∉ resolveAliases aliasHeap aliasedDict := by
  decide

lemma length_filter_le_one_of_map_nodup {α : Type} (f : α → Nat) {l : List α}
    (hm : (l.map f).Nodup) (p : Nat) :
    (l.filter (fun e => f e == p)).length ≤ 1 := by
  induction l with
  | nil => simp
  | cons a l ih =>
    rw [List.map_cons, List.nodup_cons] at hm
    obtain ⟨hfa, hnd⟩ := hm
    by_cases hq : f a = p
    · rw [List.filter_cons_of_pos (by simp [hq])]
      have hnil : l.filter (fun e => f e == p) = [] := by
        rw [List.filter_eq_nil_iff]
        intro e he
        simp only [beq_iff_eq]
        intro hep
        have hmm : f e ∈ List.map f l := List.mem_map_of_mem f he
        rw [hep, ← hq] at hmm
        exact hfa hmm
      rw [hnil]
      simp
    · rw [List.filter_cons_of_neg (by simp [hq])]
      exact ih hnd

lemma resolved_ptr_nodup {h : Heap} {l : List (String × Tensor)}
    (hnd : (l.map Prod.fst).Nodup) :
    ((resolveAliases h l).map (fun kv => data_ptr h kv.2)).Nodup := by
  have hsub : ∀ kv, kv ∈ resolveAliases h l → kv ∈ l := by
    intro kv hkv
    exact ((mem_resolveAliases_iff hnd kv).mp hkv).1
  have hresnd : (resolveAliases h l).Nodup := List.Nodup.filter _ hnd.of_map
  apply List.Nodup.map_on ?_ hresnd
  intro a ha b hb hab
  exact survivors_ptr_inj hnd a (hsub a ha) b (hsub b hb) hab ha hb

/-- Claim C9 (confirmed): the alias resolver is idempotent.  With names
pairwise distinct, after the pop loop every surviving entry holds a distinct
`data_ptr`, so a second run of `get_shared_weights` on the pruned dict finds
no group of size greater than one, the pop loop removes nothing, and applying
the resolver to its own output is a no-op. -/
theorem resolveAliases_idempotent (h : Heap) (l : List (String × Tensor))
    (hnd : (l.map Prod.fst).Nodup) :
    get_shared_weights h (resolveAliases h l) = [] ∧
      resolveAliases h (resolveAliases h l) = resolveAliases h l := by
  have hptr := resolved_ptr_nodup (h := h) hnd
  have h1 : get_shared_weights h (resolveAliases h l) = [] := by
    unfold get_shared_weights
    rw [List.filter_eq_nil_iff]
    intro g hg
    rw [List.mem_map] at hg
    obtain ⟨p, hp, hgp⟩ := hg
    simp only [decide_eq_true_eq]
    rw [← hgp]
    unfold groupNames
    rw [List.length_map]
    have hle :=
      length_filter_le_one_of_map_nodup (fun kv : String × Tensor => data_ptr h kv.2) hptr p
    omega
  refine ⟨h1, ?_⟩
  have h2 : removedNames h (resolveAliases h l) = [] := by
    unfold removedNames
    rw [h1]
    rfl
  have hstep : resolveAliases h (resolveAliases h l) =
      (resolveAliases h l).filter
        (fun kv => !(removedNames h (resolveAliases h l)).contains kv.1) := rfl
  rw [hstep, h2]
  apply List.filter_eq_self.mpr
  intro a ha
  rfl

/-- Witness for C9 at the concrete three-way aliased dict. -/
theorem resolveAliases_idempotent_witness :
    get_shared_weights aliasHeap (resolveAliases aliasHeap aliasedDict) = [] ∧
      resolveAliases aliasHeap (resolveAliases aliasHeap aliasedDict) =
        resolveAliases aliasHeap aliasedDict :=
  resolveAliases_idempotent aliasHeap aliasedDict (by decide)

/-- Claim C5 (confirmed): every tensor placed in the serialized map by the
normalization comprehension `{k: v.contiguous().half() for k, v in
loaded.items()}` has dtype float16 and contiguous layout, whatever the input
dtype and layout were; the normalization is total (it raises no error for
integer or lower-precision inputs — `Tensor.half` is defined on every
dtype). -/
theorem normalizeTensors_half_contiguous (loaded : List (String × Tensor)) :
    ∀ kv ∈ normalizeTensors loaded,
      kv.2.dtype = DType.float16 ∧ kv.2.contiguousFlag = true := by
  intro kv hkv
  rw [normalizeTensors, List.mem_map] at hkv
  obtain ⟨kv0, hmem, rfl⟩ := hkv
  exact ⟨rfl, rfl⟩

/-- Witness for C5: the normalized image of an int64 non-contiguous tensor is
half precision and contiguous. -/
theorem normalizeTensors_half_contiguous_witness :
    ("i", tensorHalf (tensorContiguous ⟨0, 0, DType.int64, false, [3]⟩)) ∈
        normalizeTensors [("i", ⟨0, 0, DType.int64, false, [3]⟩)] ∧
      ((tensorHalf (tensorContiguous ⟨0, 0, DType.int64, false, [3]⟩)).dtype = DType.float16 ∧
        (tensorHalf (tensorContiguous ⟨0, 0, DType.int64, false, [3]⟩)).contiguousFlag = true) :=
  ⟨by decide,
   normalizeTensors_half_contiguous [("i", ⟨0, 0, DType.int64, false, [3]⟩)]
     ("i", tensorHalf (tensorContiguous ⟨0, 0, DType.int64, false, [3]⟩)) (by decide)⟩

/-- Claim C6 (confirmed): the round-trip loop succeeds exactly when every
written entry reloads to a `torch.equal` (exact, no tolerance) tensor, and
every error it raises either is the `RuntimeError` whose message names the
specific mismatching key, or (only possible if the reload dropped a key) the
`KeyError` naming the missing key; in particular no error is raised when all
tensors compare equal. -/
theorem roundTripCheck_ok_iff (loaded reloaded : List (String × Tensor)) :
    (roundTripCheck loaded reloaded = Except.ok () ↔
      ∀ kv ∈ loaded, ∃ w, dictGet kv.1 reloaded = some w ∧ torchEqual kv.2 w = true) ∧
    (∀ e, roundTripCheck loaded reloaded = Except.error e →
      ∃ k, (∃ v w, (k, v) ∈ loaded ∧ dictGet k reloaded = some w ∧ torchEqual v w = false ∧
              e = PyError.runtimeError (mismatchMessage k)) ∨
           (∃ v, (k, v) ∈ loaded ∧ dictGet k reloaded = none ∧ e = PyError.keyError k)) := by
  induction loaded with
  | nil =>
    constructor
    · simp [roundTripCheck]
    · intro e he
      simp [roundTripCheck] at he
  | cons kv rest ih =>
    obtain ⟨k, v⟩ := kv
    cases hd : dictGet k reloaded with
    | none =>
      have hred : roundTripCheck ((k, v) :: rest) reloaded = Except.error (PyError.keyError k) := by
        simp [roundTripCheck, hd]
      constructor
      · rw [hred]
        constructor
        · intro hco
          exact absurd hco (by simp)
        · intro hall
          obtain ⟨w, hw, _⟩ := hall (k, v) (List.mem_cons_self _ _)
          rw [hd] at hw
          exact absurd hw (by simp)
      · intro e he
        rw [hred] at he
        have he2 : e = PyError.keyError k := by
          injection he.symm with h1
        exact ⟨k, Or.inr ⟨v, List.mem_cons_self _ _, hd, he2⟩⟩
    | some w =>
      by_cases heq : torchEqual v w = true
      · have hred : roundTripCheck ((k, v) :: rest) reloaded = roundTripCheck rest reloaded := by
          simp [roundTripCheck, hd, heq]
        constructor
        · rw [hred, ih.1]
          constructor
          · intro hall kv2 hkv2
            rcases List.mem_cons.mp hkv2 with rfl | h2
            · exact ⟨w, hd, heq⟩
            · exact hall kv2 h2
          · intro hall kv2 hkv2
            exact hall kv2 (List.mem_cons_of_mem _ hkv2)
        · intro e he
          rw [hred] at he
          obtain ⟨k2, hcase⟩ := ih.2 e he
          refine ⟨k2, ?_⟩
          rcases hcase with ⟨v2, w2, hm, hg, ht, hmsg⟩ | ⟨v2, hm, hg, hke⟩
          · exact Or.inl ⟨v2, w2, List.mem_cons_of_mem _ hm, hg, ht, hmsg⟩
          · exact Or.inr ⟨v2, List.mem_cons_of_mem _ hm, hg, hke⟩
      · have hred : roundTripCheck ((k, v) :: rest) reloaded
            = Except.error (PyError.runtimeError (mismatchMessage k)) := by
          simp [roundTripCheck, hd, heq]
        constructor
        · rw [hred]
          constructor
          · intro hco
            exact absurd hco (by simp)
          · intro hall
            obtain ⟨w2, hw2, heq2⟩ := hall (k, v) (List.mem_cons_self _ _)
            rw [hd] at hw2
            have hww : w = w2 := by injection hw2
            rw [← hww] at heq2
            exact absurd heq2 heq
        · intro e he
          rw [hred] at he
          have he2 : e = PyError.runtimeError (mismatchMessage k) := by
            injection he.symm with h1
          exact ⟨k, Or.inl ⟨v, w, List.mem_cons_self _ _, hd,
            Bool.eq_false_iff.mpr heq, he2⟩⟩

/-- Witness for C6: a faithful one-tensor reload passes the loop via the
equivalence, and the equivalence also decides a concrete mismatch. -/
theorem roundTripCheck_ok_iff_witness :
    roundTripCheck [("w", normalizedW)] [("w", normalizedW)] = Except.ok () :=
  (roundTripCheck_ok_iff [("w", normalizedW)] [("w", normalizedW)]).1.mpr (by
    intro kv hkv
    rcases List.mem_cons.mp hkv with rfl | h2
    · exact ⟨normalizedW, rfl, by decide⟩
    · simp at h2)

/-! ## Size-drift check and pipeline traces -/

lemma check_file_size_ok_iff (sf_size pt_size : Nat) :
    check_file_size sf_size pt_size = Except.ok () ↔
      pt_size ≠ 0 ∧ ((sf_size : ℚ) - (pt_size : ℚ)) / (pt_size : ℚ) ≤ 1 / 100 := by
  unfold check_file_size
  by_cases h0 : pt_size = 0
  · simp [h0]
  · rw [if_neg h0]
    by_cases hgt : ((sf_size : ℚ) - (pt_size : ℚ)) / (pt_size : ℚ) > 1 / 100
    · rw [if_pos hgt]
      rw [one_div] at hgt
      simp [h0, not_le.mpr hgt]
    · rw [if_neg hgt]
      rw [gt_iff_lt, one_div] at hgt
      simp [h0, not_lt.mp hgt]

/-- Claim C10 (confirmed): `check_file_size` divides by the legacy file's
size with no guard: a zero-byte legacy file makes it raise
`ZeroDivisionError` (never the size-drift `RuntimeError`), and for every
nonzero size the division is well defined — `ZeroDivisionError` is
impossible. -/
theorem check_file_size_zero_division :
    (∀ sf_size : Nat, check_file_size sf_size 0 = Except.error PyError.zeroDivisionError) ∧
    (∀ sf_size pt_size : Nat, pt_size ≠ 0 →
      check_file_size sf_size pt_size ≠ Except.error PyError.zeroDivisionError) := by
  constructor
  · intro sf_size
    simp [check_file_size]
  · intro sf_size pt_size hpt
    unfold check_file_size
    rw [if_neg hpt]
    by_cases hgt : ((sf_size : ℚ) - (pt_size : ℚ)) / (pt_size : ℚ) > 1 / 100
    · rw [if_pos hgt]
      simp
    · rw [if_neg hgt]
      simp

/-- Witness for C10 at concrete sizes. -/
theorem check_file_size_zero_division_witness :
    check_file_size 5 0 = Except.error PyError.zeroDivisionError ∧
      check_file_size 100 100 ≠ Except.error PyError.zeroDivisionError :=
  ⟨check_file_size_zero_division.1 5, check_file_size_zero_division.2 100 100 (by decide)⟩

lemma check_envOk_ok : check_file_size envOk.sfSize envOk.ptSize = Except.ok () := by
  rw [check_file_size_ok_iff]
  norm_num [envOk]

lemma check_envShrink_ok : check_file_size envShrink.sfSize envShrink.ptSize = Except.ok () := by
  rw [check_file_size_ok_iff]
  norm_num [envShrink]

lemma convert_envOk_eq :
    convert_file envOk =
      (Except.ok (), [Stage.loader, Stage.aliasResolver, Stage.precisionNormalizer,
        Stage.containerWriter, Stage.sizeDriftCheck, Stage.sidecarCopier,
        Stage.roundTripCheck]) := by
  simp only [convert_file, check_envOk_ok]
  rfl

lemma convert_envShrink_ok : (convert_file envShrink).1 = Except.ok () := by
  simp only [convert_file, check_envShrink_ok]
  rfl

/-- Claim C1 (amended): the size-drift check is one-sided.  For every run
that completes successfully the SIGNED relative size difference
`(output_size - input_size) / input_size` is at most `0.01` (and the input
size is nonzero), and for nonzero input the check raises its fatal
`RuntimeError` exactly when that signed ratio exceeds `0.01`.  The absolute
value `|output_size - input_size| / input_size` is NOT bounded on successful
runs: an output arbitrarily smaller than the input passes (see the
counterexample), so the claim's absolute bound had to be weakened to the
signed bound the code implements. -/
theorem convert_file_size_drift_signed_bound :
    (∀ env : ConvertEnv, (convert_file env).1 = Except.ok () →
      0 < env.ptSize ∧
        ((env.sfSize : ℚ) - (env.ptSize : ℚ)) / (env.ptSize : ℚ) ≤ 1 / 100) ∧
    (∀ sf_size pt_size : Nat, 0 < pt_size →
      (check_file_size sf_size pt_size
          = Except.error (PyError.runtimeError (sizeDriftMessage sf_size pt_size)) ↔
        ((sf_size : ℚ) - (pt_size : ℚ)) / (pt_size : ℚ) > 1 / 100)) := by
  constructor
  · intro env hok
    cases hc : check_file_size env.sfSize env.ptSize with
    | error e =>
      exfalso
      simp [convert_file, hc] at hok
    | ok u =>
      cases u
      obtain ⟨hne, hle⟩ := (check_file_size_ok_iff env.sfSize env.ptSize).mp hc
      exact ⟨Nat.pos_of_ne_zero hne, hle⟩
  · intro sf_size pt_size hpt
    unfold check_file_size
    rw [if_neg (Nat.pos_iff_ne_zero.mp hpt)]
    by_cases hgt : ((sf_size : ℚ) - (pt_size : ℚ)) / (pt_size : ℚ) > 1 / 100
    · rw [if_pos hgt]
      rw [gt_iff_lt, one_div] at hgt
      simp [hgt]
    · rw [if_neg hgt]
      rw [gt_iff_lt, one_div] at hgt
      simp [hgt]

/-- Witness for C1's amended theorem at concrete runs and sizes. -/
theorem convert_file_size_drift_signed_bound_witness :
    (0 < envOk.ptSize ∧
      ((envOk.sfSize : ℚ) - (envOk.ptSize : ℚ)) / (envOk.ptSize : ℚ) ≤ 1 / 100) ∧
    (check_file_size 102 100
        = Except.error (PyError.runtimeError (sizeDriftMessage 102 100)) ↔
      ((102 : ℚ) - (100 : ℚ)) / (100 : ℚ) > 1 / 100) :=
  ⟨convert_file_size_drift_signed_bound.1 envOk (by rw [convert_envOk_eq]),
   convert_file_size_drift_signed_bound.2 102 100 (by norm_num)⟩

/-- Claim C1, counterexample to the claim as stated: a run whose container is
half the legacy file's size completes successfully — no fatal error — yet the
absolute relative size difference is 0.5, far beyond the claimed 0.01 bound,
because the check only fires on growth, never on shrinkage. -/
theorem size_drift_absolute_bound_counterexample :
    (convert_file envShrink).1 = Except.ok () ∧
      |((envShrink.sfSize : ℚ) - (envShrink.ptSize : ℚ))| / (envShrink.ptSize : ℚ) > 1 / 100 := by
  refine ⟨convert_envShrink_ok, ?_⟩
  norm_num [envShrink]

/-- Claim C2 (amended): the pipeline of a successful `convert_file` run with
sidecar copying enabled executes exactly Loader, Alias Resolver, Precision
Normalizer, Container Writer, SIZE-DRIFT check, Sidecar Copier, and only then
the ROUND-TRIP check, in that order.  Only the size-drift half of the
Integrity Checker precedes sidecar copying; the round-trip half runs after
the sidecar files are already copied (the claim's "both integrity checks
complete before any sidecar file is copied" is refuted by the
counterexample). -/
theorem convert_file_stage_order :
    ∀ env : ConvertEnv, env.copyAddData = true → (convert_file env).1 = Except.ok () →
      (convert_file env).2 =
        [Stage.loader, Stage.aliasResolver, Stage.precisionNormalizer, Stage.containerWriter,
          Stage.sizeDriftCheck, Stage.sidecarCopier, Stage.roundTripCheck] := by
  intro env hcopy hok
  cases hc : check_file_size env.sfSize env.ptSize with
  | error e =>
    exfalso
    simp [convert_file, hc] at hok
  | ok u =>
    cases u
    cases hr : roundTripCheck (normalizeTensors (resolveAliases env.heap env.loaded))
        env.reloaded with
    | error e =>
      exfalso
      simp [convert_file, hc, hr] at hok
    | ok u2 =>
      cases u2
      simp [convert_file, hc, hr, hcopy]

/-- Witness for C2's amended theorem at the benign concrete run. -/
theorem convert_file_stage_order_witness :
    (convert_file envOk).2 =
      [Stage.loader, Stage.aliasResolver, Stage.precisionNormalizer, Stage.containerWriter,
        Stage.sizeDriftCheck, Stage.sidecarCopier, Stage.roundTripCheck] :=
  convert_file_stage_order envOk rfl (by rw [convert_envOk_eq])

/-- Claim C2, counterexample to the claim as stated: in a successful run with
sidecar copying enabled, the sidecar-copy stage appears in the execution
trace strictly before the round-trip check, so it is false that both
integrity checks complete before any sidecar file is copied. -/
theorem roundtrip_after_sidecar_counterexample :
    (convert_file envOk).1 = Except.ok () ∧ envOk.copyAddData = true ∧
      (convert_file envOk).2.indexOf Stage.sidecarCopier <
        (convert_file envOk).2.indexOf Stage.roundTripCheck := by
  rw [convert_envOk_eq]
  refine ⟨rfl, rfl, ?_⟩
  decide

lemma contains_iff_mem {L : List String} {n : String} : L.contains n = true ↔ n ∈ L := by
  simp

/-- Claim C8 (confirmed): when both directory flags parse to strings, a
source listing without an entry named exactly `pytorch_model.bin` makes
`main` raise its descriptive `RuntimeError` with an empty stage trace — no
pipeline stage ran, so no destination directory or file was created (only
`containerWriter` and `sidecarCopier` touch the destination); when the entry
is present, `main` proceeds into `convert_file`. -/
theorem mainRun_missing_bin_fails_fast (env : MainEnv) (s d : String)
    (hs : env.args.src_directory = some s) (hd : env.args.dest_directory = some d) :
    ("pytorch_model.bin" ∉ env.srcListing →
      mainRun env = (Except.error (PyError.runtimeError
        "pytorch_model.bin file not found. Please ensure the correct source directory is specified."),
        [])) ∧
    ("pytorch_model.bin" ∈ env.srcListing → mainRun env = convert_file env.cenv) := by
  have hres : ∃ out, resolveDirs env.args = Except.ok out := by
    by_cases he : pyStrip d = ""
    · exact ⟨(pyStrip s, joinPath (pyStrip s) (basename (normpath (pyStrip s)) ++ "_safetensors")),
        by simp [resolveDirs, hs, hd, he]⟩
    · exact ⟨(pyStrip s, pyStrip d), by simp [resolveDirs, hs, hd, he]⟩
  obtain ⟨out, hout⟩ := hres
  constructor
  · intro hmiss
    have hcon : env.srcListing.contains "pytorch_model.bin" = false := by
      rw [← Bool.not_eq_true, contains_iff_mem]
      exact hmiss
    simp [mainRun, hout, hcon, hmiss]
  · intro hmem
    have hcon : env.srcListing.contains "pytorch_model.bin" = true :=
      contains_iff_mem.mpr hmem
    simp [mainRun, hout, hcon, hmem]

/-- Witness for C8 at a concrete listing lacking the legacy file. -/
theorem mainRun_missing_bin_fails_fast_witness :
    mainRun mainEnvNoBin = (Except.error (PyError.runtimeError
      "pytorch_model.bin file not found. Please ensure the correct source directory is specified."),
      []) :=
  (mainRun_missing_bin_fails_fast mainEnvNoBin "/data/foo" "" rfl rfl).1 (by decide)

/-- Claim C7 (code bug): the destination-derivation logic only runs when the
flag parses to a string whose strip is empty.  When the caller actually
supplies no destination directory — omits `--dest_directory`, so argparse
stores `None` — line 102's `args.dest_directory.strip()` raises
`AttributeError` and the run dies before deriving anything (second conjunct:
even with `pytorch_model.bin` present nothing runs).  The derivation itself
is as claimed: for source `/data/foo` (passed with an empty destination
string) the destination resolves to `/data/foo/foo_safetensors` by appending
the fixed `_safetensors` suffix to the source basename (third conjunct). -/
theorem resolveDirs_none_dest_attribute_error :
    resolveDirs ⟨some "/data/foo", none⟩
        = Except.error (PyError.attributeError "NoneType object has no attribute strip") ∧
      mainRun mainEnvNoDest
        = (Except.error (PyError.attributeError "NoneType object has no attribute strip"), []) ∧
      resolveDirs ⟨some "/data/foo", some ""⟩
        = Except.ok ("/data/foo", "/data/foo/foo_safetensors") :=
  ⟨rfl, rfl, rfl⟩
